import Mathlib

/-!
Verification of the parallel, fault-tolerant row transformer of
MELLODDY-TUNER (`melloddy_tuner/scripts/calculate_descriptors.py` and the
`DfTransformer` core it configures).

The CLI script `calculate_descriptors.py` is embedded directly.  The core
components it delegates to (`DfTransformer.process_dataframe`, the worker
pool and the result partitioner, living in `melloddy_tuner/utils/`) are not
part of the provided sources; they are modelled from the specification, as
marked on each definition.
-/

namespace Melloddy

/-- A scalar cell value of a table. -/
inductive Value where
  | int (n : Int)
  | str (s : String)
  | bool (b : Bool)
deriving DecidableEq, Repr

/-- One row of a table: a mapping from column name to scalar value,
kept as an ordered association list. -/
abbrev Row := List (String × Value)

/-- An in-memory table: its column names and its rows. -/
structure Table where
  cols : List String
  rows : List Row
deriving Repr

/-- Modelled from the spec: the result of applying the row computation to
one input record — a tagged variant, either `success` with a mapping of
output field to value or `failure` with an error message. -/
inductive Outcome where
  | success (values : Row)
  | failure (msg : String)
deriving DecidableEq, Repr

/-- Modelled from the spec: the `RowComputation` contract.  `compute`
returns either the output fields or a raised error message (`Except.error`
models a Python exception escaping the computation); `constructible`
models whether the computation object can be constructed in a worker
context (spec section 4.2, fatal-vs-recoverable). -/
structure RowComputation where
  constructible : Bool
  compute : Row → Except String Row

/-- Modelled from the spec: the per-row call boundary of a worker.  Any
failure raised by the computation is caught here and converted into a
`Failure` outcome carrying the message; it is never propagated. -/
def applyRow (comp : RowComputation) (r : Row) : Outcome :=
  match comp.compute r with
  | .ok v => .success v
  | .error e => .failure e

/-- Ceiling division: the chunk size used to partition `n` rows among
`w` workers. -/
def chunkSize (n w : Nat) : Nat := (n + w - 1) / w

/-- Split a list into consecutive chunks of size `k` (the last chunk may
be shorter).  The `k = 0` branch on a nonempty list is a degenerate guard
that is never reached for a valid chunk size. -/
def chunksOf : Nat → List α → List (List α)
  | _, [] => []
  | 0, xs => [xs]
  | k + 1, x :: xs =>
      (x :: xs).take (k + 1) :: chunksOf (k + 1) ((x :: xs).drop (k + 1))
termination_by _ xs => xs.length
decreasing_by
  simp only [List.drop_succ_cons, List.length_cons, List.length_drop]
  exact Nat.lt_succ_of_le (Nat.sub_le _ _)

/-- Modelled from the spec: the single-threaded fallback of the worker
pool — apply the computation to each row in order. -/
def serialMap (comp : RowComputation) (rows : List Row) : List Outcome :=
  rows.map (applyRow comp)

/-- Modelled from the spec: fatal worker-pool setup error. -/
inductive PoolError where
  | poolSetup
deriving DecidableEq, Repr

/-- Modelled from the spec: `WorkerPool.map`.  Setup fails fatally with
`PoolSetupError` when `worker_count < 1` or the computation is not
constructible in a worker context; with one worker the single-threaded
fallback runs; otherwise the rows are partitioned into chunks, each worker
maps the computation over its chunk, and results are gathered back in
input order. -/
def WorkerPool.map (comp : RowComputation) (rows : List Row)
    (worker_count : Nat) : Except PoolError (List Outcome) :=
  if worker_count < 1 ∨ comp.constructible = false then
    .error .poolSetup
  else if worker_count = 1 then
    .ok (serialMap comp rows)
  else
    .ok (((chunksOf (chunkSize rows.length worker_count) rows).map
      (fun c => c.map (applyRow comp))).flatten)

/-- Modelled from the spec: the success row emitted for a row whose
outcome is `Success` — the original row fields, then the declared output
fields of the outcome, then the explicit success flag set to true. -/
def mkSuccessRow (r v : Row) : Row :=
  r ++ v ++ [("success", Value.bool true)]

/-- Modelled from the spec: the failure row emitted for a row whose
outcome is `Failure` — the original row fields, the success flag set to
false and the error message, with no computed output fields. -/
def mkFailureRow (r : Row) (msg : String) : Row :=
  r ++ [("success", Value.bool false), ("error_message", Value.str msg)]

/-- Modelled from the spec: walk the paired (original row, outcome) list
and split it into the success rows and the failure rows, preserving
relative order. -/
def partitionPairs : List (Row × Outcome) → List Row × List Row
  | [] => ([], [])
  | (r, .success v) :: rest =>
      let p := partitionPairs rest
      (mkSuccessRow r v :: p.1, p.2)
  | (r, .failure msg) :: rest =>
      let p := partitionPairs rest
      (p.1, mkFailureRow r msg :: p.2)

/-- Modelled from the spec: violation of the length
invariant, an `AssertionError`-class programming-contract error. -/
inductive PartitionError where
  | lengthMismatch
deriving DecidableEq, Repr

/-- Modelled from the spec: `ResultPartitioner.partition`.  Requires
`len(original_rows) == len(outcomes)`; a violation is reported as the
contract error, otherwise the pairs are partitioned into the success
table and the failure table. -/
def ResultPartitioner.partition (origRows : List Row)
    (outcomes : List Outcome) : Except PartitionError (List Row × List Row) :=
  if origRows.length = outcomes.length then
    .ok (partitionPairs (origRows.zip outcomes))
  else
    .error .lengthMismatch

/-- The `DfTransformer` configuration record, with the fields passed by
`prepare_data_transformer` in `calculate_descriptors.py` (descriptor
calculator, input column mapping, output columns and types, success
column, worker count, verbosity). -/
structure DfTransformer where
  dc : RowComputation
  input_columns : List (String × String)
  output_columns : List String
  output_types : List String
  success_column : String
  nproc : Nat
  verbosity : Nat

/-- Embedding of `prepare_data_transformer` from
`melloddy_tuner/scripts/calculate_descriptors.py` (lines 93-109): builds
the `DfTransformer` with the fixed input column mapping, output columns
and types, success column, and `nproc = number_cpu`.  The descriptor
calculator built from the externally loaded config and secret key is the
opaque parameter `dc`. -/
def prepare_data_transformer (dc : RowComputation) (number_cpu : Nat) :
    DfTransformer :=
  { dc := dc
    input_columns := [("canonical_smiles", "smiles")]
    output_columns := ["fp_feat", "fp_val", "success", "error_message"]
    output_types := ["object", "object", "bool", "object"]
    success_column := "success"
    nproc := number_cpu
    verbosity := 0 }

/-- Modelled from the spec: the error taxonomy of `process` —
`SchemaError` naming the missing columns, fatal `PoolSetupError`, and the
unreachable partitioner-contract violation. -/
inductive ProcessError where
  | schemaError (missing : List String)
  | poolSetup
  | internalAssertion
deriving DecidableEq, Repr

/-- Modelled from the spec: the input columns required by the transformer
(keys of the input column mapping) that are absent from the table. -/
def missingColumns (t : DfTransformer) (table : Table) : List String :=
  (t.input_columns.map Prod.fst).filter (fun c => !(table.cols.contains c))

/-- Modelled from the spec: project and rename one input row per the
input column mapping, producing the internal record consumed by the row
computation. -/
def mapRow (m : List (String × String)) (r : Row) : Row :=
  m.filterMap (fun p => (r.lookup p.1).map (fun v => (p.2, v)))

/-- Modelled from the spec: `Transformer.process`
(`DfTransformer.process_dataframe`), instrumented with the number of rows
on which the row computation was invoked.  Validates that the mapped
input columns exist (fail fast with `SchemaError` before any row is
processed), projects/renames the columns, delegates to `WorkerPool.map`,
and merges the outcomes back onto the original unmapped rows by
positional index via `ResultPartitioner.partition`. -/
def processT (t : DfTransformer) (table : Table) :
    Except ProcessError (List Row × List Row) × Nat :=
  if missingColumns t table = [] then
    match WorkerPool.map t.dc (table.rows.map (mapRow t.input_columns))
        t.nproc with
    | .error _ => (.error .poolSetup, 0)
    | .ok outcomes =>
        match ResultPartitioner.partition table.rows outcomes with
        | .ok p => (.ok p, table.rows.length)
        | .error _ => (.error .internalAssertion, table.rows.length)
  else
    (.error (.schemaError (missingColumns t table)), 0)

/-- Modelled from the spec: `process(input_table)` returning the success
table and failure table, or a fatal error. -/
def process (t : DfTransformer) (table : Table) :
    Except ProcessError (List Row × List Row) :=
  (processT t table).1

/-- Modelled from the spec: how many rows the computation was invoked on
during `process` (the side-effect counter of the missing-column test). -/
def computeInvocations (t : DfTransformer) (table : Table) : Nat :=
  (processT t table).2

/-! ### Helper lemmas -/

/-- Flattening the chunks recovers the original list. -/
theorem chunksOf_flatten (k : Nat) (xs : List α) :
    (chunksOf k xs).flatten = xs := by
  induction k, xs using chunksOf.induct with
  | case1 k => simp [chunksOf]
  | case2 x xs => simp [chunksOf]
  | case3 k x xs ih =>
      rw [chunksOf]
      simp only [List.flatten_cons, ih]
      exact List.take_append_drop _ _

/-- A successful pool run returns the outcomes of the rows, in input
order, for every valid worker count. -/
theorem poolMap_ok (comp : RowComputation) (rows : List Row)
    (w : Nat) (hw : 1 ≤ w) (hc : comp.constructible = true) :
    WorkerPool.map comp rows w = .ok (rows.map (applyRow comp)) := by
  unfold WorkerPool.map
  have h1 : ¬(w < 1 ∨ comp.constructible = false) := by
    rw [hc]; simp; omega
  rw [if_neg h1]
  by_cases h2 : w = 1
  · rw [if_pos h2]; rfl
  · rw [if_neg h2, ← List.map_flatten, chunksOf_flatten]

/-- The success component of `partitionPairs`, as a `filterMap`. -/
theorem partitionPairs_fst (ps : List (Row × Outcome)) :
    (partitionPairs ps).1 = ps.filterMap (fun p =>
      match p.2 with
      | .success v => some (mkSuccessRow p.1 v)
      | .failure _ => none) := by
  induction ps with
  | nil => rfl
  | cons p rest ih =>
      obtain ⟨r, o⟩ := p
      cases o <;> simp [partitionPairs, List.filterMap_cons, ih]

/-- The failure component of `partitionPairs`, as a `filterMap`. -/
theorem partitionPairs_snd (ps : List (Row × Outcome)) :
    (partitionPairs ps).2 = ps.filterMap (fun p =>
      match p.2 with
      | .success _ => none
      | .failure msg => some (mkFailureRow p.1 msg)) := by
  induction ps with
  | nil => rfl
  | cons p rest ih =>
      obtain ⟨r, o⟩ := p
      cases o <;> simp [partitionPairs, List.filterMap_cons, ih]

/-- Each pair lands in exactly one component: the lengths sum to the
number of pairs. -/
theorem partitionPairs_length (ps : List (Row × Outcome)) :
    (partitionPairs ps).1.length + (partitionPairs ps).2.length =
      ps.length := by
  induction ps with
  | nil => rfl
  | cons p rest ih =>
      obtain ⟨r, o⟩ := p
      cases o <;> simp [partitionPairs] <;> omega

/-- The output row emitted for an (original row, outcome) pair. -/
def outRow (r : Row) (o : Outcome) : Row :=
  match o with
  | .success v => mkSuccessRow r v
  | .failure msg => mkFailureRow r msg

/-- The two components of `partitionPairs` together are a permutation of
the per-pair output rows. -/
theorem partitionPairs_perm (ps : List (Row × Outcome)) :
    ((partitionPairs ps).1 ++ (partitionPairs ps).2).Perm
      (ps.map (fun p => outRow p.1 p.2)) := by
  induction ps with
  | nil => rfl
  | cons p rest ih =>
      obtain ⟨r, o⟩ := p
      cases o with
      | success v =>
          simpa [partitionPairs, outRow] using ih.cons (mkSuccessRow r v)
      | failure msg =>
          simp only [partitionPairs, outRow, List.map_cons]
          exact List.perm_middle.trans (ih.cons (mkFailureRow r msg))

/-- Rewriting a `filterMap` over a list zipped with its own image under
`g`. -/
theorem filterMap_zip_map (f : α × β → Option γ) (g : α → β)
    (l : List α) :
    (l.zip (l.map g)).filterMap f =
      l.filterMap (fun a => f (a, g a)) := by
  induction l with
  | nil => rfl
  | cons a l ih => simp [List.filterMap_cons, ih]

/-- The success table that `process` produces for given input rows: the
rows whose outcome is a success, in input order, each extended with the
outcome fields and the true success flag. -/
def successRowsOf (t : DfTransformer) (rows : List Row) : List Row :=
  rows.filterMap (fun r =>
    match applyRow t.dc (mapRow t.input_columns r) with
    | .success v => some (mkSuccessRow r v)
    | .failure _ => none)

/-- The failure table that `process` produces for given input rows: the
rows whose outcome is a failure, in input order, each extended with the
false success flag and the error message. -/
def failureRowsOf (t : DfTransformer) (rows : List Row) : List Row :=
  rows.filterMap (fun r =>
    match applyRow t.dc (mapRow t.input_columns r) with
    | .success _ => none
    | .failure msg => some (mkFailureRow r msg))

/-- Characterization of a successful `process` run: with all mapped
columns present, a valid worker count and a constructible computation,
`process` returns exactly the stable partition of the input rows into
success rows and failure rows. -/
theorem partitionPairs_zip_map (t : DfTransformer) (rows : List Row) :
    partitionPairs
      (rows.zip (rows.map (applyRow t.dc ∘ mapRow t.input_columns))) =
      (successRowsOf t rows, failureRowsOf t rows) := by
  refine Prod.ext ?_ ?_
  · rw [partitionPairs_fst, filterMap_zip_map]; rfl
  · rw [partitionPairs_snd, filterMap_zip_map]; rfl

theorem process_ok_char (t : DfTransformer) (table : Table)
    (hm : missingColumns t table = []) (hw : 1 ≤ t.nproc)
    (hc : t.dc.constructible = true) :
    process t table =
      .ok (successRowsOf t table.rows, failureRowsOf t table.rows) := by
  have hpool :=
    poolMap_ok t.dc (table.rows.map (mapRow t.input_columns)) t.nproc hw hc
  have hpart : ResultPartitioner.partition table.rows
      ((table.rows.map (mapRow t.input_columns)).map (applyRow t.dc)) =
      .ok (successRowsOf t table.rows, failureRowsOf t table.rows) := by
    unfold ResultPartitioner.partition
    rw [if_pos (by simp), List.map_map, partitionPairs_zip_map]
  unfold process processT
  rw [if_pos hm]
  simp only [hpool, hpart]

/-- A pool-setup violation fails the whole `map` call. -/
theorem poolMap_setup (comp : RowComputation) (rows : List Row) (w : Nat)
    (h : w < 1 ∨ comp.constructible = false) :
    WorkerPool.map comp rows w = .error .poolSetup := by
  unfold WorkerPool.map
  rw [if_pos h]

/-- Inversion: whenever the pool returns outcomes, they are the per-row
outcomes in input order. -/
theorem poolMap_ok_inv (comp : RowComputation) (rows : List Row)
    (w : Nat) (outs : List Outcome)
    (h : WorkerPool.map comp rows w = .ok outs) :
    outs = rows.map (applyRow comp) := by
  unfold WorkerPool.map at h
  by_cases hs : w < 1 ∨ comp.constructible = false
  · rw [if_pos hs] at h; exact absurd h (by simp)
  · rw [if_neg hs] at h
    by_cases h1 : w = 1
    · rw [if_pos h1] at h
      exact (Except.ok.inj h).symm
    · rw [if_neg h1] at h
      rw [← Except.ok.inj h, ← List.map_flatten, chunksOf_flatten]

/-- Inversion: a successful `process` run implies that all mapped columns
were present, the worker count was valid and the computation was
constructible. -/
theorem process_ok_inv (t : DfTransformer) (table : Table)
    (s f : List Row) (h : process t table = .ok (s, f)) :
    missingColumns t table = [] ∧ 1 ≤ t.nproc ∧
      t.dc.constructible = true := by
  unfold process processT at h
  by_cases hm : missingColumns t table = []
  · rw [if_pos hm] at h
    by_cases hs : t.nproc < 1 ∨ t.dc.constructible = false
    · rw [poolMap_setup _ _ _ hs] at h
      exact absurd h (by simp)
    · refine ⟨hm, ?_, ?_⟩
      · omega
      · revert hs; cases t.dc.constructible <;> simp
  · rw [if_neg hm] at h
    exact absurd h (by simp)

/-- The tables of a successful `process` run are exactly the stable
partition of the input rows. -/
theorem process_ok_tables (t : DfTransformer) (table : Table)
    (s f : List Row) (h : process t table = .ok (s, f)) :
    s = successRowsOf t table.rows ∧ f = failureRowsOf t table.rows := by
  obtain ⟨hm, hw, hc⟩ := process_ok_inv t table s f h
  have hchar := process_ok_char t table hm hw hc
  rw [h] at hchar
  have := Except.ok.inj hchar
  exact ⟨congrArg Prod.fst this, congrArg Prod.snd this⟩

/-- The lengths of the two stable-partition tables sum to the number of
input rows. -/
theorem successRowsOf_length_add (t : DfTransformer) (rows : List Row) :
    (successRowsOf t rows).length + (failureRowsOf t rows).length =
      rows.length := by
  have h := partitionPairs_length
    (rows.zip (rows.map (applyRow t.dc ∘ mapRow t.input_columns)))
  rw [partitionPairs_zip_map] at h
  simpa using h

/-! ### Concrete fixtures (spec section 8 scenario) -/

/-- The section-8 scenario computation: double a numeric value, fail with
"not numeric" otherwise. -/
def demoComp : RowComputation where
  constructible := true
  compute := fun r =>
    match r.lookup "smiles" with
    | some (Value.int n) =>
        .ok [("fp_feat", Value.int (2 * n)), ("fp_val", Value.int n)]
    | _ => .error "not numeric"

/-- The transformer of `prepare_data_transformer` over the scenario
computation, one worker. -/
def demoT : DfTransformer := prepare_data_transformer demoComp 1

/-- The section-8 scenario input table: rows 2, "a", 5. -/
def demoTable : Table where
  cols := ["canonical_smiles"]
  rows := [[("canonical_smiles", Value.int 2)],
           [("canonical_smiles", Value.str "a")],
           [("canonical_smiles", Value.int 5)]]

/-- Expected success table of the scenario. -/
def demoS : List Row :=
  [[("canonical_smiles", Value.int 2), ("fp_feat", Value.int 4),
    ("fp_val", Value.int 2), ("success", Value.bool true)],
   [("canonical_smiles", Value.int 5), ("fp_feat", Value.int 10),
    ("fp_val", Value.int 5), ("success", Value.bool true)]]

/-- Expected failure table of the scenario. -/
def demoF : List Row :=
  [[("canonical_smiles", Value.str "a"), ("success", Value.bool false),
    ("error_message", Value.str "not numeric")]]

/-- A table whose column names miss "canonical_smiles". -/
def demoBadTable : Table where
  cols := ["smiles"]
  rows := [[("smiles", Value.int 2)]]

/-- A `process` call on a table with missing mapped columns fails with
the schema error naming them. -/
theorem process_missing (t : DfTransformer) (table : Table)
    (hm : missingColumns t table ≠ []) :
    process t table = .error (.schemaError (missingColumns t table)) := by
  unfold process processT
  rw [if_neg hm]

/-- A `process` call whose pool setup is invalid fails with the pool
setup error. -/
theorem process_pool_error (t : DfTransformer) (table : Table)
    (hm : missingColumns t table = [])
    (hs : t.nproc < 1 ∨ t.dc.constructible = false) :
    process t table = .error .poolSetup := by
  unfold process processT
  rw [if_pos hm, poolMap_setup _ _ _ hs]

/-- The success table is an order-preserving selection (sublist) of the
per-row output rows taken in input order. -/
theorem successRowsOf_sublist (t : DfTransformer) (rows : List Row) :
    (successRowsOf t rows).Sublist
      (rows.map (fun r => outRow r (applyRow t.dc (mapRow t.input_columns r)))) := by
  induction rows with
  | nil => simp [successRowsOf]
  | cons r l ih =>
      simp only [successRowsOf, List.filterMap_cons, List.map_cons] at ih ⊢
      cases ha : applyRow t.dc (mapRow t.input_columns r) with
      | success v => simpa [outRow, ha] using ih.cons₂ (mkSuccessRow r v)
      | failure msg => simpa [outRow, ha] using ih.cons (outRow r (.failure msg))

/-- The failure table is an order-preserving selection (sublist) of the
per-row output rows taken in input order. -/
theorem failureRowsOf_sublist (t : DfTransformer) (rows : List Row) :
    (failureRowsOf t rows).Sublist
      (rows.map (fun r => outRow r (applyRow t.dc (mapRow t.input_columns r)))) := by
  induction rows with
  | nil => simp [failureRowsOf]
  | cons r l ih =>
      simp only [failureRowsOf, List.filterMap_cons, List.map_cons] at ih ⊢
      cases ha : applyRow t.dc (mapRow t.input_columns r) with
      | success v => simpa [outRow, ha] using ih.cons (outRow r (.success v))
      | failure msg => simpa [outRow, ha] using ih.cons₂ (mkFailureRow r msg)

/-- Occurrences of a row in a list are bounded by the matching entries of
the zipped, per-element image list. -/
theorem count_le_countP_zip_map {β : Type} (rows : List Row) (g : Row → β)
    (p : Row × β → Bool) (r : Row) (hp : ∀ o, p (r, o) = true) :
    rows.count r ≤ (rows.zip (rows.map g)).countP p := by
  induction rows with
  | nil => simp
  | cons a l ih =>
      rw [List.map_cons, List.zip_cons_cons, List.count_cons, List.countP_cons]
      by_cases ha : a = r
      · subst ha
        simp [hp (g a)]
        exact ih
      · have hne : (a == r) = false := by simp [ha]
        simp [hne]
        exact le_trans ih (by omega)

/-! ### Claims -/

/-- C1: Row conservation — whenever `process` returns a success table and
a failure table, their row counts sum to the input row count, and every
input row appears in exactly one of the two tables: the success table is
exactly the in-order selection of success-outcome rows and the failure
table exactly the in-order selection of failure-outcome rows. -/
theorem C1_row_conservation (t : DfTransformer) (table : Table)
    (s f : List Row) (h : process t table = .ok (s, f)) :
    s.length + f.length = table.rows.length ∧
    s = successRowsOf t table.rows ∧ f = failureRowsOf t table.rows := by
  obtain ⟨hs, hf⟩ := process_ok_tables t table s f h
  subst hs hf
  exact ⟨successRowsOf_length_add t table.rows, rfl, rfl⟩

/-- Witness for C1 at the section-8 scenario of the spec: 3 input rows, 2
successes plus 1 failure. -/
theorem C1_row_conservation_witness :
    process demoT demoTable = Except.ok (demoS, demoF) ∧
    demoS.length + demoF.length = demoTable.rows.length := by
  have h : process demoT demoTable = Except.ok (demoS, demoF) := rfl
  exact ⟨h, (C1_row_conservation demoT demoTable demoS demoF h).1⟩

/-- C4: Missing-column fast failure — if any key of the input column
mapping is absent from the columns of the table, `process` fails with
`SchemaError` naming the missing columns, and the row computation is
invoked on zero rows. -/
theorem C4_missing_column_fast_failure (t : DfTransformer) (table : Table)
    (h : missingColumns t table ≠ []) :
    process t table = .error (.schemaError (missingColumns t table)) ∧
    computeInvocations t table = 0 := by
  unfold process computeInvocations processT
  rw [if_neg h]
  exact ⟨rfl, rfl⟩

/-- Witness for C4: a table lacking "canonical_smiles" is rejected with
the missing column named and a zero invocation counter. -/
theorem C4_missing_column_fast_failure_witness :
    missingColumns demoT demoBadTable = ["canonical_smiles"] ∧
    process demoT demoBadTable =
      .error (.schemaError (missingColumns demoT demoBadTable)) ∧
    computeInvocations demoT demoBadTable = 0 :=
  ⟨rfl, C4_missing_column_fast_failure demoT demoBadTable (by decide)⟩

/-- C8: Pool setup failure is fatal — `WorkerPool.map` fails with
`PoolSetupError` exactly when the worker count is below one or the
computation is not constructible in a worker context; per-row failures
never surface as a pool error. -/
theorem C8_pool_setup_fatal (comp : RowComputation) (rows : List Row)
    (w : Nat) :
    WorkerPool.map comp rows w = .error .poolSetup ↔
      (w < 1 ∨ comp.constructible = false) := by
  constructor
  · intro h
    by_cases hs : w < 1 ∨ comp.constructible = false
    · exact hs
    · exfalso
      obtain ⟨h1, h2⟩ := not_or.mp hs
      have hw : 1 ≤ w := by omega
      have hc : comp.constructible = true := by
        revert h2; cases comp.constructible <;> simp
      rw [poolMap_ok comp rows w hw hc] at h
      exact absurd h (by simp)
  · exact poolMap_setup comp rows w

/-- C9: Partitioner length precondition — `partition` reports the
`AssertionError`-class contract violation exactly when the lengths
of the two lists differ, and inside `process` that branch is unreachable. -/
theorem C9_partition_contract (origRows : List Row)
    (outcomes : List Outcome) (t : DfTransformer) (table : Table) :
    (ResultPartitioner.partition origRows outcomes =
        .error .lengthMismatch ↔ origRows.length ≠ outcomes.length) ∧
    process t table ≠ .error .internalAssertion := by
  constructor
  · unfold ResultPartitioner.partition
    by_cases hl : origRows.length = outcomes.length
    · rw [if_pos hl]; simp [hl]
    · rw [if_neg hl]; simp [hl]
  · intro h
    by_cases hm : missingColumns t table = []
    · cases hpool : WorkerPool.map t.dc
          (table.rows.map (mapRow t.input_columns)) t.nproc with
      | error e =>
          unfold process processT at h
          rw [if_pos hm, hpool] at h
          exact absurd h (by simp)
      | ok outs =>
          by_cases hs : t.nproc < 1 ∨ t.dc.constructible = false
          · rw [poolMap_setup _ _ _ hs] at hpool
            exact absurd hpool (by simp)
          · obtain ⟨h1, h2⟩ := not_or.mp hs
            have hw : 1 ≤ t.nproc := by omega
            have hc : t.dc.constructible = true := by
              revert h2; cases t.dc.constructible <;> simp
            rw [process_ok_char t table hm hw hc] at h
            exact absurd h (by simp)
    · unfold process processT at h
      rw [if_neg hm] at h
      exact absurd h (by simp)

/-- C10: Transformer configuration is independent of the worker count —
`prepare_data_transformer` differs across `number_cpu` values only in
`nproc`, with the fixed input column mapping, output columns, output
types and success column of the source. -/
theorem C10_config_independent_of_worker_count (dc : RowComputation)
    (n m : Nat) :
    prepare_data_transformer dc n =
      { prepare_data_transformer dc m with nproc := n } ∧
    (prepare_data_transformer dc n).input_columns =
      [("canonical_smiles", "smiles")] ∧
    (prepare_data_transformer dc n).output_columns =
      ["fp_feat", "fp_val", "success", "error_message"] ∧
    (prepare_data_transformer dc n).output_types =
      ["object", "object", "bool", "object"] ∧
    (prepare_data_transformer dc n).success_column = "success" ∧
    (prepare_data_transformer dc n).nproc = n :=
  ⟨rfl, rfl, rfl, rfl, rfl, rfl⟩

/-- C2: Serial/parallel equivalence — for every input table, `process`
with any worker count of at least one returns the same result, error or
tables, as the single-threaded fallback with one worker, row for row and
field for field. -/
theorem C2_serial_parallel_equivalence (t : DfTransformer) (table : Table)
    (w : Nat) (hw : 1 ≤ w) :
    process { t with nproc := w } table =
      process { t with nproc := 1 } table := by
  by_cases hm : missingColumns t table = []
  · by_cases hc : t.dc.constructible = true
    · rw [process_ok_char { t with nproc := w } table hm hw hc,
          process_ok_char { t with nproc := 1 } table hm le_rfl hc]
      rfl
    · have hc' : t.dc.constructible = false := by
        revert hc; cases t.dc.constructible <;> simp
      rw [process_pool_error { t with nproc := w } table hm (Or.inr hc'),
          process_pool_error { t with nproc := 1 } table hm (Or.inr hc')]
  · rw [process_missing { t with nproc := w } table hm,
        process_missing { t with nproc := 1 } table hm]
    rfl

/-- Witness for C2: eight workers and one worker agree on the section-8
scenario. -/
theorem C2_serial_parallel_equivalence_witness :
    (1 : Nat) ≤ 8 ∧
    process { demoT with nproc := 8 } demoTable =
      process { demoT with nproc := 1 } demoTable :=
  ⟨by decide, C2_serial_parallel_equivalence demoT demoTable 8 (by decide)⟩

/-- C3: Failure isolation — for every valid pool, the batch completes
with an outcome list that is the pointwise image of the rows, so the outcome at
position i depends only on the row at position i and a failing row cannot affect any sibling
row; an exception raised by the computation on a row is caught at the
per-row boundary and becomes a `Failure` outcome carrying its message,
never a propagated error, while rows whose computation returns a value
succeed. -/
theorem C3_failure_isolation (comp : RowComputation) (rows : List Row)
    (w : Nat) (hw : 1 ≤ w) (hc : comp.constructible = true) :
    WorkerPool.map comp rows w = .ok (rows.map (applyRow comp)) ∧
    (∀ r e, comp.compute r = .error e → applyRow comp r = .failure e) ∧
    (∀ r v, comp.compute r = .ok v → applyRow comp r = .success v) := by
  refine ⟨poolMap_ok comp rows w hw hc, ?_, ?_⟩
  · intro r e he; unfold applyRow; rw [he]
  · intro r v hv; unfold applyRow; rw [hv]

/-- Witness for C3: a two-worker pool over the scenario rows, where the
computation on the middle row raises and the others succeed. -/
theorem C3_failure_isolation_witness :
    (1 : Nat) ≤ 2 ∧ demoComp.constructible = true ∧
    WorkerPool.map demoComp
        (demoTable.rows.map (mapRow demoT.input_columns)) 2 =
      .ok ((demoTable.rows.map (mapRow demoT.input_columns)).map
        (applyRow demoComp)) ∧
    (demoTable.rows.map (mapRow demoT.input_columns)).map
        (applyRow demoComp) =
      [.success [("fp_feat", Value.int 4), ("fp_val", Value.int 2)],
       .failure "not numeric",
       .success [("fp_feat", Value.int 10), ("fp_val", Value.int 5)]] :=
  ⟨by decide, rfl,
    (C3_failure_isolation demoComp
      (demoTable.rows.map (mapRow demoT.input_columns)) 2
      (by decide) rfl).1, rfl⟩

/-- C5: Schema fidelity of partitioning — every success-table row is
exactly the fields of an input row followed by the declared output
fields of the outcome followed by the true success flag, and every failure-table row is
exactly the fields of an input row followed by the false success flag and the
error message, with no computed output fields. -/
theorem C5_schema_fidelity (t : DfTransformer) (table : Table)
    (s f : List Row) (h : process t table = .ok (s, f)) :
    (∀ row ∈ s, ∃ r v, r ∈ table.rows ∧
       applyRow t.dc (mapRow t.input_columns r) = .success v ∧
       row = r ++ v ++ [("success", Value.bool true)]) ∧
    (∀ row ∈ f, ∃ r msg, r ∈ table.rows ∧
       applyRow t.dc (mapRow t.input_columns r) = .failure msg ∧
       row = r ++ [("success", Value.bool false),
                   ("error_message", Value.str msg)]) := by
  obtain ⟨hs, hf⟩ := process_ok_tables t table s f h
  subst hs hf
  constructor
  · intro row hrow
    unfold successRowsOf at hrow
    rw [List.mem_filterMap] at hrow
    obtain ⟨r, hr, hg⟩ := hrow
    cases ha : applyRow t.dc (mapRow t.input_columns r) with
    | success v =>
        rw [ha] at hg
        exact ⟨r, v, hr, ha, (Option.some.inj hg).symm⟩
    | failure msg =>
        rw [ha] at hg
        exact absurd hg (by simp)
  · intro row hrow
    unfold failureRowsOf at hrow
    rw [List.mem_filterMap] at hrow
    obtain ⟨r, hr, hg⟩ := hrow
    cases ha : applyRow t.dc (mapRow t.input_columns r) with
    | success v =>
        rw [ha] at hg
        exact absurd hg (by simp)
    | failure msg =>
        rw [ha] at hg
        exact ⟨r, msg, hr, ha, (Option.some.inj hg).symm⟩

/-- Witness for C5 at the section-8 scenario tables. -/
theorem C5_schema_fidelity_witness :
    process demoT demoTable = Except.ok (demoS, demoF) ∧
    (∀ row ∈ demoS, ∃ r v, r ∈ demoTable.rows ∧
       applyRow demoT.dc (mapRow demoT.input_columns r) = .success v ∧
       row = r ++ v ++ [("success", Value.bool true)]) ∧
    (∀ row ∈ demoF, ∃ r msg, r ∈ demoTable.rows ∧
       applyRow demoT.dc (mapRow demoT.input_columns r) = .failure msg ∧
       row = r ++ [("success", Value.bool false),
                   ("error_message", Value.str msg)]) :=
  ⟨rfl, C5_schema_fidelity demoT demoTable demoS demoF rfl⟩

/-- C6: Ordering guarantee — the outcome list of the pool is the pointwise
image of the rows, hence in the same order as the input rows, and each
output table is a filterMap of the input rows and a sublist of the
in-order per-row output rows: a stable partition preserving relative
input order. -/
theorem C6_ordering_guarantee (t : DfTransformer) (table : Table)
    (s f : List Row) (h : process t table = .ok (s, f)) :
    WorkerPool.map t.dc (table.rows.map (mapRow t.input_columns)) t.nproc =
      .ok ((table.rows.map (mapRow t.input_columns)).map
        (applyRow t.dc)) ∧
    s = successRowsOf t table.rows ∧ f = failureRowsOf t table.rows ∧
    s.Sublist (table.rows.map (fun r =>
      outRow r (applyRow t.dc (mapRow t.input_columns r)))) ∧
    f.Sublist (table.rows.map (fun r =>
      outRow r (applyRow t.dc (mapRow t.input_columns r)))) := by
  obtain ⟨hm, hw, hc⟩ := process_ok_inv t table s f h
  obtain ⟨hs, hf⟩ := process_ok_tables t table s f h
  subst hs hf
  exact ⟨poolMap_ok _ _ _ hw hc, rfl, rfl,
    successRowsOf_sublist t table.rows, failureRowsOf_sublist t table.rows⟩

/-- Witness for C6 at the section-8 scenario. -/
theorem C6_ordering_guarantee_witness :
    process demoT demoTable = Except.ok (demoS, demoF) ∧
    demoS.Sublist (demoTable.rows.map (fun r =>
      outRow r (applyRow demoT.dc (mapRow demoT.input_columns r)))) ∧
    demoF.Sublist (demoTable.rows.map (fun r =>
      outRow r (applyRow demoT.dc (mapRow demoT.input_columns r)))) :=
  ⟨rfl,
    (C6_ordering_guarantee demoT demoTable demoS demoF rfl).2.2.2.1,
    (C6_ordering_guarantee demoT demoTable demoS demoF rfl).2.2.2.2⟩

/-- C7: Positional merge without deduplication — outcomes are merged onto
the original rows by position, so the two tables together hold one output
row per input position, and an input row occurring k times contributes at
least k output rows that start with its fields: duplicates are processed
and appear separately, never merged by content. -/
theorem C7_positional_no_dedup (t : DfTransformer) (table : Table)
    (s f : List Row) (h : process t table = .ok (s, f)) :
    s.length + f.length = table.rows.length ∧
    ∀ r : Row, table.rows.count r ≤
      (s ++ f).countP (fun row => row.take r.length == r) := by
  obtain ⟨hs, hf⟩ := process_ok_tables t table s f h
  subst hs hf
  refine ⟨successRowsOf_length_add t table.rows, ?_⟩
  intro r
  have hperm := partitionPairs_perm
    (table.rows.zip
      (table.rows.map (applyRow t.dc ∘ mapRow t.input_columns)))
  rw [partitionPairs_zip_map] at hperm
  rw [hperm.countP_eq, List.countP_map]
  apply count_le_countP_zip_map
  intro o
  cases o with
  | success v =>
      simp [outRow, mkSuccessRow, List.append_assoc, List.take_left]
  | failure msg =>
      simp [outRow, mkFailureRow, List.take_left]

/-- Witness for C7: a table whose two identical rows both succeed and
appear separately in the success table. -/
theorem C7_positional_no_dedup_witness :
    process demoT
      { cols := ["canonical_smiles"],
        rows := [[("canonical_smiles", Value.int 2)],
                 [("canonical_smiles", Value.int 2)]] } =
      Except.ok
        ([[("canonical_smiles", Value.int 2), ("fp_feat", Value.int 4),
           ("fp_val", Value.int 2), ("success", Value.bool true)],
          [("canonical_smiles", Value.int 2), ("fp_feat", Value.int 4),
           ("fp_val", Value.int 2), ("success", Value.bool true)]], []) ∧
    (2 : Nat) ≤ 2 ∧
    ∀ r : Row,
      ({ cols := ["canonical_smiles"],
         rows := [[("canonical_smiles", Value.int 2)],
                  [("canonical_smiles", Value.int 2)]] : Table }).rows.count
          r ≤
        (([[("canonical_smiles", Value.int 2), ("fp_feat", Value.int 4),
            ("fp_val", Value.int 2), ("success", Value.bool true)],
           [("canonical_smiles", Value.int 2), ("fp_feat", Value.int 4),
            ("fp_val", Value.int 2), ("success", Value.bool true)]] ++
          ([] : List Row)).countP
          (fun row => row.take r.length == r)) :=
  ⟨rfl, by decide,
    (C7_positional_no_dedup demoT
      { cols := ["canonical_smiles"],
        rows := [[("canonical_smiles", Value.int 2)],
                 [("canonical_smiles", Value.int 2)]] }
      [[("canonical_smiles", Value.int 2), ("fp_feat", Value.int 4),
        ("fp_val", Value.int 2), ("success", Value.bool true)],
       [("canonical_smiles", Value.int 2), ("fp_feat", Value.int 4),
        ("fp_val", Value.int 2), ("success", Value.bool true)]]
      [] rfl).2⟩

end Melloddy
